import Mathlib

/-!
Verification of the gesture-recognition core of the 3D Merry Christmas
installation: gesture classification, temporal stabilization, cursor
smoothing and mode-transition control, as implemented in the
`GestureDetector` component (`predictWebcam`) and the zustand store.

Numerics are modelled with exact rationals.  The source computes Euclidean
distances with `Math.hypot` and only ever compares them against nonnegative
thresholds; where a comparison on distances is needed we either take the
distances themselves as (nonnegative) inputs, or compare squared distances,
which is equivalent for nonnegative quantities.
-/

namespace XmasGesture

/-- The gesture vocabulary (`GestureType` in `types.ts`, a string enum:
`gestureHistory` is a `useRef<string[]>` holding these values). -/
inductive GestureType where
  | NONE
  | OPEN_HAND
  | CLOSED_FIST
  | PINCH
  | VICTORY
  | HEART
deriving DecidableEq, Repr

/-- The application modes (`AppMode` in `types.ts`). -/
inductive AppMode where
  | TREE
  | TEXT
  | SCATTER
  | LOVE
deriving DecidableEq, Repr

/-- The per-frame geometric quantities `predictWebcam` computes from one
detected hand's landmarks, all via `Math.hypot` (hence nonnegative in any
run of the program):
* `handSize`  – distance wrist (landmark 0) to middle-finger MCP (landmark 9);
* `thumbDist` – distance thumb tip (4) to wrist;
* `pinchDist` – distance thumb tip (4) to index tip (8);
* `d0 d1 d2 d3` – the entries of `fingerDistances`: distances from the
  wrist to the index (8), middle (12), ring (16) and pinky (20) tips. -/
structure HandMetrics where
  handSize : ℚ
  thumbDist : ℚ
  pinchDist : ℚ
  d0 : ℚ
  d1 : ℚ
  d2 : ℚ
  d3 : ℚ
deriving DecidableEq, Repr

/-- Source `isOpen`: `fingerDistances.every(d => d > handSize * OPEN_RATIO)`
with `OPEN_RATIO = 1.6`. -/
def isOpen (m : HandMetrics) : Bool :=
  decide (m.d0 > m.handSize * 1.6) && decide (m.d1 > m.handSize * 1.6) &&
  decide (m.d2 > m.handSize * 1.6) && decide (m.d3 > m.handSize * 1.6)

/-- Source `isFist`: `fingerDistances.every(d => d < handSize * FIST_RATIO)`
with `FIST_RATIO = 1.3`. -/
def isFist (m : HandMetrics) : Bool :=
  decide (m.d0 < m.handSize * 1.3) && decide (m.d1 < m.handSize * 1.3) &&
  decide (m.d2 < m.handSize * 1.3) && decide (m.d3 < m.handSize * 1.3)

/-- Source `isPinch`: `pinchDist < handSize * PINCH_RATIO` with
`PINCH_RATIO = 0.5`. -/
def isPinch (m : HandMetrics) : Bool :=
  decide (m.pinchDist < m.handSize * 0.5)

/-- Source `indexUp`: `fingerDistances[0] > handSize * 1.4`. -/
def indexUp (m : HandMetrics) : Bool :=
  decide (m.d0 > m.handSize * 1.4)

/-- Source `middleUp`: `fingerDistances[1] > handSize * 1.4`. -/
def middleUp (m : HandMetrics) : Bool :=
  decide (m.d1 > m.handSize * 1.4)

/-- Source `ringDown`: `fingerDistances[2] < handSize * 1.2`. -/
def ringDown (m : HandMetrics) : Bool :=
  decide (m.d2 < m.handSize * 1.2)

/-- Source `pinkyDown`: `fingerDistances[3] < handSize * 1.2`. -/
def pinkyDown (m : HandMetrics) : Bool :=
  decide (m.d3 < m.handSize * 1.2)

/-- Source `isVictory`: index and middle up, ring and pinky down. -/
def isVictory (m : HandMetrics) : Bool :=
  indexUp m && middleUp m && ringDown m && pinkyDown m

/-- Source `thumbUp`: `hypot(thumbTip - wrist) > handSize * 0.8`. -/
def thumbUp (m : HandMetrics) : Bool :=
  decide (m.thumbDist > m.handSize * 0.8)

/-- Source `pinkyUp`: `fingerDistances[3] > handSize * 1.4`. -/
def pinkyUp (m : HandMetrics) : Bool :=
  decide (m.d3 > m.handSize * 1.4)

/-- Source `middleDown`: `fingerDistances[1] < handSize * 1.2`. -/
def middleDown (m : HandMetrics) : Bool :=
  decide (m.d1 < m.handSize * 1.2)

/-- Source `isLove` (ILY sign): thumb, index, pinky up; middle, ring down. -/
def isLove (m : HandMetrics) : Bool :=
  thumbUp m && indexUp m && middleDown m && ringDown m && pinkyUp m

/-- The classifier if-chain of `predictWebcam` assigning `detectedGesture`:
LOVE/HEART first, then VICTORY, CLOSED_FIST, PINCH, OPEN_HAND, else NONE. -/
def detectedGesture (m : HandMetrics) : GestureType :=
  if isLove m then GestureType.HEART
  else if isVictory m then GestureType.VICTORY
  else if isFist m then GestureType.CLOSED_FIST
  else if isPinch m then GestureType.PINCH
  else if isOpen m then GestureType.OPEN_HAND
  else GestureType.NONE

/-- The classifier exactly as the spec words it (section 4.1): predicates
written out with the spec's thresholds, evaluated in the fixed priority
order HEART, VICTORY, CLOSED_FIST, PINCH, OPEN_HAND, else NONE. -/
def specClassify (m : HandMetrics) : GestureType :=
  if m.thumbDist > 0.8 * m.handSize ∧ m.d0 > 1.4 * m.handSize ∧
     m.d1 < 1.2 * m.handSize ∧ m.d2 < 1.2 * m.handSize ∧
     m.d3 > 1.4 * m.handSize then GestureType.HEART
  else if m.d0 > 1.4 * m.handSize ∧ m.d1 > 1.4 * m.handSize ∧
     m.d2 < 1.2 * m.handSize ∧ m.d3 < 1.2 * m.handSize then GestureType.VICTORY
  else if m.d0 < 1.3 * m.handSize ∧ m.d1 < 1.3 * m.handSize ∧
     m.d2 < 1.3 * m.handSize ∧ m.d3 < 1.3 * m.handSize then GestureType.CLOSED_FIST
  else if m.pinchDist < 0.5 * m.handSize then GestureType.PINCH
  else if m.d0 > 1.6 * m.handSize ∧ m.d1 > 1.6 * m.handSize ∧
     m.d2 > 1.6 * m.handSize ∧ m.d3 > 1.6 * m.handSize then GestureType.OPEN_HAND
  else GestureType.NONE

end XmasGesture

namespace XmasGesture

/-- The source HEART predicate unfolded to the spec's wording. -/
lemma isLove_iff (m : HandMetrics) :
    isLove m = true ↔
      (m.thumbDist > 0.8 * m.handSize ∧ m.d0 > 1.4 * m.handSize ∧
       m.d1 < 1.2 * m.handSize ∧ m.d2 < 1.2 * m.handSize ∧
       m.d3 > 1.4 * m.handSize) := by
  simp only [isLove, thumbUp, indexUp, middleDown, ringDown, pinkyUp,
    Bool.and_eq_true, decide_eq_true_eq, and_assoc,
    mul_comm m.handSize (0.8 : ℚ), mul_comm m.handSize (1.4 : ℚ),
    mul_comm m.handSize (1.2 : ℚ)]

/-- The source VICTORY predicate unfolded to the spec's wording. -/
lemma isVictory_iff (m : HandMetrics) :
    isVictory m = true ↔
      (m.d0 > 1.4 * m.handSize ∧ m.d1 > 1.4 * m.handSize ∧
       m.d2 < 1.2 * m.handSize ∧ m.d3 < 1.2 * m.handSize) := by
  simp only [isVictory, indexUp, middleUp, ringDown, pinkyDown,
    Bool.and_eq_true, decide_eq_true_eq, and_assoc,
    mul_comm m.handSize (1.4 : ℚ), mul_comm m.handSize (1.2 : ℚ)]

/-- The source CLOSED_FIST predicate unfolded to the spec's wording. -/
lemma isFist_iff (m : HandMetrics) :
    isFist m = true ↔
      (m.d0 < 1.3 * m.handSize ∧ m.d1 < 1.3 * m.handSize ∧
       m.d2 < 1.3 * m.handSize ∧ m.d3 < 1.3 * m.handSize) := by
  simp only [isFist, Bool.and_eq_true, decide_eq_true_eq, and_assoc,
    mul_comm m.handSize (1.3 : ℚ)]

/-- The source PINCH predicate unfolded to the spec's wording. -/
lemma isPinch_iff (m : HandMetrics) :
    isPinch m = true ↔ m.pinchDist < 0.5 * m.handSize := by
  simp only [isPinch, decide_eq_true_eq, mul_comm m.handSize (0.5 : ℚ)]

/-- The source OPEN_HAND predicate unfolded to the spec's wording. -/
lemma isOpen_iff (m : HandMetrics) :
    isOpen m = true ↔
      (m.d0 > 1.6 * m.handSize ∧ m.d1 > 1.6 * m.handSize ∧
       m.d2 > 1.6 * m.handSize ∧ m.d3 > 1.6 * m.handSize) := by
  simp only [isOpen, Bool.and_eq_true, decide_eq_true_eq, and_assoc,
    mul_comm m.handSize (1.6 : ℚ)]

/-- C1: for every present hand frame the classifier returns the first
matching predicate in the fixed priority order HEART, VICTORY, CLOSED_FIST,
PINCH, OPEN_HAND, else NONE, with the predicates using exactly the spec's
thresholds (0.8, 1.4, 1.2, 1.3, 0.5, 1.6 times `handSize`): the source
if-chain `detectedGesture` agrees with the spec-worded classifier
`specClassify` on every input. -/
theorem detectedGesture_eq_specClassify (m : HandMetrics) :
    detectedGesture m = specClassify m := by
  unfold detectedGesture specClassify
  simp only [isLove_iff, isVictory_iff, isFist_iff, isPinch_iff, isOpen_iff]

/-- C10: no hand frame with a nonnegative `handSize` (as any Euclidean
distance is) satisfies the HEART and VICTORY predicates simultaneously:
HEART needs the middle-fingertip distance below `1.2 * handSize` while
VICTORY needs it above `1.4 * handSize`. -/
theorem love_victory_exclusive (m : HandMetrics) (h : 0 ≤ m.handSize) :
    ¬(isLove m = true ∧ isVictory m = true) := by
  rintro ⟨hl, hv⟩
  rw [isLove_iff] at hl
  rw [isVictory_iff] at hv
  have h1 : m.d1 < 1.2 * m.handSize := hl.2.2.1
  have h2 : m.d1 > 1.4 * m.handSize := hv.2.1
  nlinarith

/-- Witness for C10: a concrete frame with nonnegative hand size on which
the exclusivity theorem applies (an open hand: all distances well above the
thresholds). -/
theorem love_victory_exclusive_witness :
    (0 : ℚ) ≤ (HandMetrics.mk 1 1 1 2 2 2 2).handSize ∧
    ¬(isLove (HandMetrics.mk 1 1 1 2 2 2 2) = true ∧
      isVictory (HandMetrics.mk 1 1 1 2 2 2 2) = true) :=
  ⟨by norm_num, love_victory_exclusive (HandMetrics.mk 1 1 1 2 2 2 2) (by norm_num)⟩

/-- Source: `gestureHistory.current.push(detectedGesture); if
(gestureHistory.current.length > 8) gestureHistory.current.shift();` —
append one sample, then drop the oldest when the window exceeds capacity 8. -/
def pushGesture (h : List GestureType) (g : GestureType) : List GestureType :=
  let h2 := h ++ [g]
  if h2.length > 8 then h2.tail else h2

/-- The key set of the source's `counts` record.  `counts` is built by
`gestureHistory.current.reduce((acc, curr) => { acc[curr] = (acc[curr] || 0)
+ 1; ... })`, so its keys are the distinct gestures of the window in order
of first occurrence (the gesture values are non-numeric strings, for which
JavaScript object keys keep insertion order). -/
def keysInOrder (h : List GestureType) : List GestureType :=
  h.foldl (fun ks g => if g ∈ ks then ks else ks ++ [g]) []

/-- The source's candidate selection `Object.keys(counts).reduce((a, b) =>
counts[a] > counts[b] ? a : b)` without its implicit seed: fold the tail of
the key list starting from its head, keeping the incumbent only when its
count is strictly larger. -/
def pickMax (cnt : GestureType → ℕ) (a : GestureType) (ks : List GestureType) :
    GestureType :=
  ks.foldl (fun x y => if cnt x > cnt y then x else y) a

/-- Source `stableGesture`: the `reduce` above over the keys of `counts`,
keyed by occurrence counts in the current window.  A JavaScript `reduce`
with no initial value takes the first key as the seed; the source only
evaluates this right after a push, so the window is never empty there (the
`[]` branch is unreachable dead padding for totality). -/
def stableGesture (h : List GestureType) : GestureType :=
  match keysInOrder h with
  | [] => GestureType.NONE
  | k :: ks => pickMax (fun g => h.count g) k ks

/-- C9: each push appends one sample and evicts the oldest whenever the
length exceeds 8, so a window of length at most 8 stays at most 8, and any
sequence of pushes starting from the empty history keeps the window within
the 8 most recent samples. -/
theorem gestureHistory_length_le_eight :
    (∀ (h : List GestureType) (g : GestureType), h.length ≤ 8 →
      (pushGesture h g).length ≤ 8) ∧
    (∀ gs : List GestureType, (List.foldl pushGesture [] gs).length ≤ 8) := by
  have step : ∀ (h : List GestureType) (g : GestureType), h.length ≤ 8 →
      (pushGesture h g).length ≤ 8 := by
    intro h g hlen
    unfold pushGesture
    simp only [List.length_append, List.length_singleton]
    by_cases hc : h.length + 1 > 8
    · simp only [if_pos hc, List.length_tail, List.length_append,
        List.length_singleton]
      omega
    · simp only [if_neg hc, List.length_append, List.length_singleton]
      omega
  refine ⟨step, ?_⟩
  intro gs
  induction gs using List.reverseRecOn with
  | nil => simp
  | append_singleton gs g ih =>
      rw [List.foldl_append]
      exact step _ g ih

/-- Witness for C9: pushing onto a full window of eight samples keeps the
length at eight. -/
theorem gestureHistory_length_le_eight_witness :
    (pushGesture (List.replicate 8 GestureType.NONE) GestureType.HEART).length ≤ 8 :=
  gestureHistory_length_le_eight.1 (List.replicate 8 GestureType.NONE)
    GestureType.HEART (by decide)

/-- Unfolding lemma: one `foldl` step of the candidate-selection reduce. -/
lemma pickMax_cons (cnt : GestureType → ℕ) (a k : GestureType)
    (ks : List GestureType) :
    pickMax cnt a (k :: ks) = pickMax cnt (if cnt a > cnt k then a else k) ks :=
  rfl

/-- The seed's count never exceeds the selected candidate's count. -/
lemma pickMax_le (cnt : GestureType → ℕ) :
    ∀ (ks : List GestureType) (a : GestureType), cnt a ≤ cnt (pickMax cnt a ks) := by
  intro ks
  induction ks with
  | nil => intro a; exact le_refl _
  | cons k t ih =>
      intro a
      rw [pickMax_cons]
      by_cases hc : cnt a > cnt k
      · rw [if_pos hc]
        exact ih a
      · rw [if_neg hc]
        exact le_trans (not_lt.mp hc) (ih k)

/-- The selected candidate is the seed or one of the scanned keys. -/
lemma pickMax_mem (cnt : GestureType → ℕ) :
    ∀ (ks : List GestureType) (a : GestureType),
      pickMax cnt a ks = a ∨ pickMax cnt a ks ∈ ks := by
  intro ks
  induction ks with
  | nil => intro a; exact Or.inl rfl
  | cons k t ih =>
      intro a
      rw [pickMax_cons]
      by_cases hc : cnt a > cnt k
      · rw [if_pos hc]
        rcases ih a with h | h
        · exact Or.inl h
        · exact Or.inr (List.mem_cons_of_mem _ h)
      · rw [if_neg hc]
        rcases ih k with h | h
        · rw [h]
          exact Or.inr (List.mem_cons_self _ _)
        · exact Or.inr (List.mem_cons_of_mem _ h)

/-- No scanned key's count exceeds the selected candidate's count. -/
lemma pickMax_ge_mem (cnt : GestureType → ℕ) :
    ∀ (ks : List GestureType) (a b : GestureType), b ∈ ks →
      cnt b ≤ cnt (pickMax cnt a ks) := by
  intro ks
  induction ks with
  | nil => intro a b hb; cases hb
  | cons k t ih =>
      intro a b hb
      rw [pickMax_cons]
      rcases List.mem_cons.mp hb with rfl | hb
      · by_cases hc : cnt a > cnt b
        · rw [if_pos hc]
          exact le_trans (le_of_lt hc) (pickMax_le cnt t a)
        · rw [if_neg hc]
          exact pickMax_le cnt t b
      · by_cases hc : cnt a > cnt k
        · rw [if_pos hc]
          exact ih a b hb
        · rw [if_neg hc]
          exact ih k b hb

/-- The `counts[a] > counts[b] ? a : b` reduce keeps the incumbent only on a
strictly larger count, so the selected candidate is the LAST key in scan
order attaining the maximal count: every key scanned after it has a strictly
smaller count. -/
lemma pickMax_last_max (cnt : GestureType → ℕ) :
    ∀ (ks : List GestureType) (a : GestureType), ∃ ks₁ ks₂,
      a :: ks = ks₁ ++ pickMax cnt a ks :: ks₂ ∧
      ∀ b ∈ ks₂, cnt b < cnt (pickMax cnt a ks) := by
  intro ks
  induction ks with
  | nil => intro a; exact ⟨[], [], rfl, by simp⟩
  | cons k t ih =>
      intro a
      rw [pickMax_cons]
      by_cases hc : cnt a > cnt k
      · rw [if_pos hc]
        obtain ⟨ks₁, ks₂, heq, hlt⟩ := ih a
        cases ks₁ with
        | nil =>
            simp only [List.nil_append] at heq
            injection heq with ha ht
            refine ⟨[], k :: t, ?_, ?_⟩
            · rw [List.nil_append, ← ha]
            · intro b hb
              rcases List.mem_cons.mp hb with rfl | hb
              · exact lt_of_lt_of_le hc (pickMax_le cnt t a)
              · exact hlt b (ht ▸ hb)
        | cons c t₁ =>
            rw [List.cons_append] at heq
            injection heq with ha ht
            refine ⟨a :: k :: t₁, ks₂, ?_, hlt⟩
            rw [List.cons_append, List.cons_append, ← ht]
      · rw [if_neg hc]
        obtain ⟨ks₁, ks₂, heq, hlt⟩ := ih k
        exact ⟨a :: ks₁, ks₂, by rw [List.cons_append, ← heq], hlt⟩

/-- Membership in the key-collecting fold: an element is collected exactly
when it is in the accumulator or in the remaining input. -/
lemma mem_keys_fold (h : List GestureType) :
    ∀ (acc : List GestureType) (g : GestureType),
      (g ∈ h.foldl (fun ks g => if g ∈ ks then ks else ks ++ [g]) acc ↔
        g ∈ acc ∨ g ∈ h) := by
  induction h with
  | nil => simp
  | cons x t ih =>
      intro acc g
      simp only [List.foldl_cons]
      rw [ih]
      by_cases hx : x ∈ acc
      · rw [if_pos hx]
        simp only [List.mem_cons]
        constructor
        · rintro (hg | hg)
          · exact Or.inl hg
          · exact Or.inr (Or.inr hg)
        · rintro (hg | hg | hg)
          · exact Or.inl hg
          · exact Or.inl (hg ▸ hx)
          · exact Or.inr hg
      · rw [if_neg hx]
        simp only [List.mem_append, List.mem_singleton, List.mem_cons]
        tauto

/-- The key list of the counts record holds exactly the gestures of the
window. -/
lemma mem_keysInOrder (h : List GestureType) (g : GestureType) :
    g ∈ keysInOrder h ↔ g ∈ h := by
  unfold keysInOrder
  rw [mem_keys_fold]
  simp

/-- Appending one sample extends the key list with the sample exactly when
it is new. -/
lemma keysInOrder_append_singleton (h : List GestureType) (g : GestureType) :
    keysInOrder (h ++ [g]) =
      if g ∈ keysInOrder h then keysInOrder h else keysInOrder h ++ [g] := by
  unfold keysInOrder
  rw [List.foldl_append]
  simp only [List.foldl_cons, List.foldl_nil]

/-- The key list is ordered by first occurrence in the window: any key
strictly preceding another in the key list first occurs strictly earlier. -/
lemma keysInOrder_pairwise_indexOf (h : List GestureType) :
    (keysInOrder h).Pairwise (fun a b => h.indexOf a < h.indexOf b) := by
  induction h using List.reverseRecOn with
  | nil => simp [keysInOrder]
  | append_singleton t g ih =>
      rw [keysInOrder_append_singleton]
      by_cases hg : g ∈ keysInOrder t
      · rw [if_pos hg]
        rw [List.pairwise_iff_forall_sublist] at ih ⊢
        intro a b hsub
        have ha : a ∈ t := (mem_keysInOrder t a).mp (hsub.subset (by simp))
        have hb : b ∈ t := (mem_keysInOrder t b).mp (hsub.subset (by simp))
        rw [List.indexOf_append_of_mem ha, List.indexOf_append_of_mem hb]
        exact ih hsub
      · rw [if_neg hg]
        have hgt : g ∉ t := fun hmem => hg ((mem_keysInOrder t g).mpr hmem)
        rw [List.pairwise_append]
        refine ⟨?_, by simp, ?_⟩
        · rw [List.pairwise_iff_forall_sublist] at ih ⊢
          intro a b hsub
          have ha : a ∈ t := (mem_keysInOrder t a).mp (hsub.subset (by simp))
          have hb : b ∈ t := (mem_keysInOrder t b).mp (hsub.subset (by simp))
          rw [List.indexOf_append_of_mem ha, List.indexOf_append_of_mem hb]
          exact ih hsub
        · intro a ha b hb
          rw [List.mem_singleton] at hb
          subst hb
          have hat : a ∈ t := (mem_keysInOrder t a).mp ha
          rw [List.indexOf_append_of_mem hat, List.indexOf_append_of_not_mem hgt]
          have hlt : t.indexOf a < t.length := List.indexOf_lt_length.mpr hat
          simp only [List.indexOf_cons_self]
          omega

/-- Counterexample to C2's tie-break direction: after pushing
HEART, HEART, VICTORY, VICTORY into an empty history, both gestures have
count 2 and HEART's first occurrence is the earlier one, yet the source's
`reduce` keeps the incumbent only on a strictly larger count and therefore
returns VICTORY, not the claimed earliest-first-occurrence HEART. -/
theorem stableGesture_tie_not_earliest :
    (List.foldl pushGesture []
        [GestureType.HEART, GestureType.HEART,
         GestureType.VICTORY, GestureType.VICTORY]).count GestureType.HEART =
      (List.foldl pushGesture []
        [GestureType.HEART, GestureType.HEART,
         GestureType.VICTORY, GestureType.VICTORY]).count GestureType.VICTORY ∧
    (List.foldl pushGesture []
        [GestureType.HEART, GestureType.HEART,
         GestureType.VICTORY, GestureType.VICTORY]).indexOf GestureType.HEART <
      (List.foldl pushGesture []
        [GestureType.HEART, GestureType.HEART,
         GestureType.VICTORY, GestureType.VICTORY]).indexOf GestureType.VICTORY ∧
    stableGesture (List.foldl pushGesture []
        [GestureType.HEART, GestureType.HEART,
         GestureType.VICTORY, GestureType.VICTORY]) ≠ GestureType.HEART := by
  decide

/-- C2 as amended: for every push (hence every nonempty window) the stable
gesture is an element of the window with maximal occurrence count, and among
gestures tied at the maximal count it is the one whose first occurrence
comes LATEST in a left-to-right (oldest-to-newest) scan of the window; in
particular pushing the same gesture G eight times yields G, and the window
[A,A,A,A,A,B,B,B] yields A (5 votes against 3). -/
theorem stableGesture_plurality :
    (∀ h : List GestureType, h ≠ [] →
        stableGesture h ∈ h ∧
        (∀ g ∈ h, h.count g ≤ h.count (stableGesture h)) ∧
        (∀ g ∈ h, h.count g = h.count (stableGesture h) →
          h.indexOf g ≤ h.indexOf (stableGesture h))) ∧
    (∀ g : GestureType,
        stableGesture (List.foldl pushGesture [] (List.replicate 8 g)) = g) ∧
    stableGesture (List.foldl pushGesture []
        [GestureType.OPEN_HAND, GestureType.OPEN_HAND, GestureType.OPEN_HAND,
         GestureType.OPEN_HAND, GestureType.OPEN_HAND, GestureType.CLOSED_FIST,
         GestureType.CLOSED_FIST, GestureType.CLOSED_FIST]) =
      GestureType.OPEN_HAND := by
  refine ⟨?_, fun g => by cases g <;> decide, by decide⟩
  intro h hne
  obtain ⟨x, t, rfl⟩ : ∃ x t, h = x :: t := by
    cases h with
    | nil => exact absurd rfl hne
    | cons x t => exact ⟨x, t, rfl⟩
  set h := x :: t with hh
  have hxk : x ∈ keysInOrder h := (mem_keysInOrder h x).mpr (List.mem_cons_self _ _)
  obtain ⟨k, ks, hk⟩ : ∃ k ks, keysInOrder h = k :: ks := by
    cases hkeys : keysInOrder h with
    | nil => rw [hkeys] at hxk; cases hxk
    | cons k ks => exact ⟨k, ks, rfl⟩
  have hst : stableGesture h = pickMax (fun g => h.count g) k ks := by
    unfold stableGesture
    rw [hk]
  set r := pickMax (fun g => h.count g) k ks with hr
  have hrk : r ∈ keysInOrder h := by
    rw [hk]
    rcases pickMax_mem (fun g => h.count g) ks k with he | he
    · rw [hr, he]
      exact List.mem_cons_self _ _
    · exact List.mem_cons_of_mem _ he
  have hrh : r ∈ h := (mem_keysInOrder h r).mp hrk
  refine ⟨hst ▸ hrh, ?_, ?_⟩
  · intro g hg
    have hgk : g ∈ keysInOrder h := (mem_keysInOrder h g).mpr hg
    rw [hst]
    rw [hk] at hgk
    rcases List.mem_cons.mp hgk with rfl | hgk
    · exact pickMax_le (fun g => h.count g) ks g
    · exact pickMax_ge_mem (fun g => h.count g) ks k g hgk
  · intro g hg hcnt
    obtain ⟨ks₁, ks₂, heq, hlt⟩ := pickMax_last_max (fun g => h.count g) ks k
    have hkeq : keysInOrder h = ks₁ ++ r :: ks₂ := by
      rw [hk, heq]
    have hgk : g ∈ keysInOrder h := (mem_keysInOrder h g).mpr hg
    rw [hkeq] at hgk
    rcases List.mem_append.mp hgk with hg1 | hg2
    · have hpw := keysInOrder_pairwise_indexOf h
      rw [hkeq, List.pairwise_append] at hpw
      have hord := hpw.2.2 g hg1 r (List.mem_cons_self _ _)
      rw [hst]
      exact le_of_lt hord
    · rcases List.mem_cons.mp hg2 with rfl | hg2
      · rw [hst]
      · have hsmaller := hlt g hg2
        have hsm : h.count g < h.count r := by
          rw [hr]
          exact hsmaller
        rw [hst] at hcnt
        omega

/-- Witness for the amended C2: on the one-sample window [HEART] the stable
gesture is an element of the window of maximal count whose first occurrence
is latest among ties. -/
theorem stableGesture_plurality_witness :
    stableGesture [GestureType.HEART] ∈ [GestureType.HEART] :=
  (stableGesture_plurality.1 [GestureType.HEART] (by decide)).1

/-- The state read and written by the debounced mode controller: the zustand
`mode` and the `lastGestureTime` ref (epoch milliseconds from `Date.now()`,
modelled as an integer). -/
structure GateState where
  mode : AppMode
  lastGestureTime : ℤ
deriving DecidableEq, Repr

/-- The debounced transition chain of `predictWebcam`: inside the 600ms
guard, the first matching branch of HEART→LOVE, VICTORY→TEXT,
CLOSED_FIST→TREE, OPEN_HAND→SCATTER whose target differs from the current
mode commits, setting the mode and the debounce timestamp; otherwise (and
outside the guard) nothing changes. -/
def modeTransition (st : GateState) (stable : GestureType) (now : ℤ) : GateState :=
  if now - st.lastGestureTime > 600 then
    if stable = GestureType.HEART ∧ st.mode ≠ AppMode.LOVE then
      GateState.mk AppMode.LOVE now
    else if stable = GestureType.VICTORY ∧ st.mode ≠ AppMode.TEXT then
      GateState.mk AppMode.TEXT now
    else if stable = GestureType.CLOSED_FIST ∧ st.mode ≠ AppMode.TREE then
      GateState.mk AppMode.TREE now
    else if stable = GestureType.OPEN_HAND ∧ st.mode ≠ AppMode.SCATTER then
      GateState.mk AppMode.SCATTER now
    else st
  else st

/-- The spec's transition table: HEART→LOVE, VICTORY→TEXT, CLOSED_FIST→TREE,
OPEN_HAND→SCATTER; PINCH and NONE have no entry. -/
def gestureTarget : GestureType → Option AppMode
  | GestureType.HEART => some AppMode.LOVE
  | GestureType.VICTORY => some AppMode.TEXT
  | GestureType.CLOSED_FIST => some AppMode.TREE
  | GestureType.OPEN_HAND => some AppMode.SCATTER
  | _ => none

/-- The controller exactly as the spec words it: a transition commits if and
only if strictly more than 600ms have passed since the last commit, the
stable gesture has a table entry, and the target differs from the current
mode; on commit the mode becomes the target and the timestamp is set to now;
otherwise the state is unchanged. -/
def specTransition (st : GateState) (stable : GestureType) (now : ℤ) : GateState :=
  match gestureTarget stable with
  | some tgt =>
      if now - st.lastGestureTime > 600 ∧ tgt ≠ st.mode then GateState.mk tgt now
      else st
  | none => st

/-- C3: on every tick with a present hand the source transition chain
commits exactly the spec's debounced table transition (and at most one per
tick, it being a function into a single next state); in particular PINCH and
NONE never change the state, and when nothing commits both the mode and the
debounce timestamp are unchanged. -/
theorem modeTransition_eq_spec (st : GateState) (stable : GestureType) (now : ℤ) :
    modeTransition st stable now = specTransition st stable now ∧
    modeTransition st GestureType.PINCH now = st ∧
    modeTransition st GestureType.NONE now = st := by
  obtain ⟨m, lt⟩ := st
  refine ⟨?_, ?_, ?_⟩
  · cases stable <;> cases m <;>
      by_cases ht : now - lt > 600 <;>
      simp_all [modeTransition, specTransition, gestureTarget]
  · by_cases ht : now - lt > 600 <;>
      simp_all [modeTransition]
  · by_cases ht : now - lt > 600 <;>
      simp_all [modeTransition]

/-- Source `lerp(start, end, t) = start * (1 - t) + end * t` (the second
point is named `e` here because `end` is reserved). -/
def lerp (start e t : ℚ) : ℚ := start * (1 - t) + e * t

/-- Squared length of the cursor move.  The source computes `distMoved =
Math.hypot(rawX - smoothedX.current, rawY - smoothedY.current)` and only
compares it against the nonnegative constant 0.05, which is equivalent to
comparing this square against `0.05 ^ 2`, keeping the model in exact
rational arithmetic. -/
def distSqMoved (sx sy rawX rawY : ℚ) : ℚ := (rawX - sx) ^ 2 + (rawY - sy) ^ 2

/-- Source `lerpFactor = distMoved > 0.05 ? 0.3 : 0.1`, with the comparison
taken on squares (see `distSqMoved`). -/
def lerpFactor (sx sy rawX rawY : ℚ) : ℚ :=
  if distSqMoved sx sy rawX rawY > 0.05 ^ 2 then 0.3 else 0.1

/-- One cursor-smoother update: `smoothed = lerp(smoothed, raw, lerpFactor)`
componentwise. -/
def smoothStep (sx sy rawX rawY : ℚ) : ℚ × ℚ :=
  (lerp sx rawX (lerpFactor sx sy rawX rawY),
   lerp sy rawY (lerpFactor sx sy rawX rawY))

/-- The adaptive factor is one of the two constants, hence inside [0, 1]. -/
lemma lerpFactor_mem (sx sy rawX rawY : ℚ) :
    0 ≤ lerpFactor sx sy rawX rawY ∧ lerpFactor sx sy rawX rawY ≤ 1 := by
  unfold lerpFactor
  by_cases hc : distSqMoved sx sy rawX rawY > 0.05 ^ 2
  · rw [if_pos hc]
    norm_num
  · rw [if_neg hc]
    norm_num

/-- A convex combination of two points of [0, 1] stays in [0, 1]. -/
lemma lerp_mem_unit (s e t : ℚ) (hs0 : 0 ≤ s) (hs1 : s ≤ 1) (he0 : 0 ≤ e)
    (he1 : e ≤ 1) (ht0 : 0 ≤ t) (ht1 : t ≤ 1) :
    0 ≤ lerp s e t ∧ lerp s e t ≤ 1 := by
  unfold lerp
  constructor <;> nlinarith

/-- One smoother update keeps the cursor in the unit square when both the
previous cursor and the raw point lie in it. -/
lemma smoothStep_mem_unit (sx sy rawX rawY : ℚ)
    (hx0 : 0 ≤ sx) (hx1 : sx ≤ 1) (hy0 : 0 ≤ sy) (hy1 : sy ≤ 1)
    (hrx0 : 0 ≤ rawX) (hrx1 : rawX ≤ 1) (hry0 : 0 ≤ rawY) (hry1 : rawY ≤ 1) :
    0 ≤ (smoothStep sx sy rawX rawY).1 ∧ (smoothStep sx sy rawX rawY).1 ≤ 1 ∧
    0 ≤ (smoothStep sx sy rawX rawY).2 ∧ (smoothStep sx sy rawX rawY).2 ≤ 1 := by
  obtain ⟨hf0, hf1⟩ := lerpFactor_mem sx sy rawX rawY
  obtain ⟨ha, hb⟩ := lerp_mem_unit sx rawX _ hx0 hx1 hrx0 hrx1 hf0 hf1
  obtain ⟨hc, hd⟩ := lerp_mem_unit sy rawY _ hy0 hy1 hry0 hry1 hf0 hf1
  exact ⟨ha, hb, hc, hd⟩

/-- Folding the smoother over a tick sequence of raw wrist points preserves
membership in the unit square (mirroring `rawX = 1 - wrist.x` included). -/
lemma foldl_smooth_mem (ws : List (ℚ × ℚ)) :
    ∀ s : ℚ × ℚ,
      (∀ w ∈ ws, 0 ≤ w.1 ∧ w.1 ≤ 1 ∧ 0 ≤ w.2 ∧ w.2 ≤ 1) →
      0 ≤ s.1 → s.1 ≤ 1 → 0 ≤ s.2 → s.2 ≤ 1 →
      0 ≤ (ws.foldl (fun s w => smoothStep s.1 s.2 (1 - w.1) w.2) s).1 ∧
      (ws.foldl (fun s w => smoothStep s.1 s.2 (1 - w.1) w.2) s).1 ≤ 1 ∧
      0 ≤ (ws.foldl (fun s w => smoothStep s.1 s.2 (1 - w.1) w.2) s).2 ∧
      (ws.foldl (fun s w => smoothStep s.1 s.2 (1 - w.1) w.2) s).2 ≤ 1 := by
  induction ws with
  | nil =>
      intro s _ h1 h2 h3 h4
      exact ⟨h1, h2, h3, h4⟩
  | cons w t ih =>
      intro s hmem h1 h2 h3 h4
      obtain ⟨hw1, hw2, hw3, hw4⟩ := hmem w (List.mem_cons_self _ _)
      have hstep := smoothStep_mem_unit s.1 s.2 (1 - w.1) w.2 h1 h2 h3 h4
        (by linarith) (by linarith) hw3 hw4
      simp only [List.foldl_cons]
      exact ih _ (fun v hv => hmem v (List.mem_cons_of_mem _ hv))
        hstep.1 hstep.2.1 hstep.2.2.1 hstep.2.2.2

/-- C7: starting from the initial smoothed cursor (0.5, 0.5), if every raw
wrist coordinate fed to the smoother lies in [0, 1], then after every update
both smoothed coordinates lie in [0, 1]: each update is a convex combination
(lerp with factor 0.1 or 0.3) of two points of [0, 1], so the cursor never
overshoots the 0/1 boundaries.  Stated for the fold over an arbitrary wrist
sequence; every prefix of ticks is itself such a sequence. -/
theorem cursor_stays_in_unit_square (ws : List (ℚ × ℚ))
    (hmem : ∀ w ∈ ws, 0 ≤ w.1 ∧ w.1 ≤ 1 ∧ 0 ≤ w.2 ∧ w.2 ≤ 1) :
    0 ≤ (ws.foldl (fun s w => smoothStep s.1 s.2 (1 - w.1) w.2) (1/2, 1/2)).1 ∧
    (ws.foldl (fun s w => smoothStep s.1 s.2 (1 - w.1) w.2) (1/2, 1/2)).1 ≤ 1 ∧
    0 ≤ (ws.foldl (fun s w => smoothStep s.1 s.2 (1 - w.1) w.2) (1/2, 1/2)).2 ∧
    (ws.foldl (fun s w => smoothStep s.1 s.2 (1 - w.1) w.2) (1/2, 1/2)).2 ≤ 1 :=
  foldl_smooth_mem ws (1/2, 1/2) hmem (by norm_num) (by norm_num) (by norm_num)
    (by norm_num)

/-- Witness for C7: one tick with the wrist at the frame corner (1, 1). -/
theorem cursor_stays_in_unit_square_witness :
    0 ≤ (([((1 : ℚ), (1 : ℚ))]).foldl
          (fun s w => smoothStep s.1 s.2 (1 - w.1) w.2) (1/2, 1/2)).1 ∧
    (([((1 : ℚ), (1 : ℚ))]).foldl
          (fun s w => smoothStep s.1 s.2 (1 - w.1) w.2) (1/2, 1/2)).1 ≤ 1 ∧
    0 ≤ (([((1 : ℚ), (1 : ℚ))]).foldl
          (fun s w => smoothStep s.1 s.2 (1 - w.1) w.2) (1/2, 1/2)).2 ∧
    (([((1 : ℚ), (1 : ℚ))]).foldl
          (fun s w => smoothStep s.1 s.2 (1 - w.1) w.2) (1/2, 1/2)).2 ≤ 1 :=
  cursor_stays_in_unit_square [((1 : ℚ), (1 : ℚ))] (by norm_num)

/-- Iterating the smoother while the raw (already mirrored) point is held
constant over successive ticks. -/
def iterSmooth (rawX rawY : ℚ) : ℕ → ℚ × ℚ → ℚ × ℚ
  | 0, s => s
  | n + 1, s => iterSmooth rawX rawY n (smoothStep s.1 s.2 rawX rawY)

/-- One smoother update scales the squared distance to the raw point by
exactly `(1 - factor) ^ 2`: `0.7 ^ 2` when the move exceeds 0.05, else
`0.9 ^ 2` (equivalently, the Euclidean distance shrinks by 0.7 or 0.9). -/
lemma smoothStep_distSq (sx sy rawX rawY : ℚ) :
    distSqMoved (smoothStep sx sy rawX rawY).1 (smoothStep sx sy rawX rawY).2
        rawX rawY =
      (if distSqMoved sx sy rawX rawY > 0.05 ^ 2 then (0.7 : ℚ) ^ 2
        else (0.9 : ℚ) ^ 2) *
        distSqMoved sx sy rawX rawY := by
  by_cases hc : distSqMoved sx sy rawX rawY > (0.05 : ℚ) ^ 2
  · simp only [if_pos hc, smoothStep, lerpFactor]
    unfold distSqMoved at hc ⊢
    unfold lerp
    ring
  · simp only [if_neg hc, smoothStep, lerpFactor]
    unfold distSqMoved at hc ⊢
    unfold lerp
    ring

/-- Geometric decay of the squared distance to a constant raw point. -/
lemma iterSmooth_distSq_le (rawX rawY : ℚ) :
    ∀ (n : ℕ) (s : ℚ × ℚ),
      distSqMoved (iterSmooth rawX rawY n s).1 (iterSmooth rawX rawY n s).2
          rawX rawY ≤
        ((0.9 : ℚ) ^ 2) ^ n * distSqMoved s.1 s.2 rawX rawY := by
  intro n
  induction n with
  | zero =>
      intro s
      simp [iterSmooth]
  | succ k ih =>
      intro s
      have hd0 : 0 ≤ distSqMoved s.1 s.2 rawX rawY := by
        unfold distSqMoved
        positivity
      have hfac : distSqMoved (smoothStep s.1 s.2 rawX rawY).1
          (smoothStep s.1 s.2 rawX rawY).2 rawX rawY ≤
            (0.9 : ℚ) ^ 2 * distSqMoved s.1 s.2 rawX rawY := by
        rw [smoothStep_distSq]
        by_cases hc : distSqMoved s.1 s.2 rawX rawY > (0.05 : ℚ) ^ 2
        · rw [if_pos hc]
          nlinarith
        · rw [if_neg hc]
      have hiter : iterSmooth rawX rawY (k + 1) s =
          iterSmooth rawX rawY k (smoothStep s.1 s.2 rawX rawY) := rfl
      rw [hiter]
      calc distSqMoved (iterSmooth rawX rawY k (smoothStep s.1 s.2 rawX rawY)).1
            (iterSmooth rawX rawY k (smoothStep s.1 s.2 rawX rawY)).2 rawX rawY ≤
          ((0.9 : ℚ) ^ 2) ^ k *
            distSqMoved (smoothStep s.1 s.2 rawX rawY).1
              (smoothStep s.1 s.2 rawX rawY).2 rawX rawY :=
            ih (smoothStep s.1 s.2 rawX rawY)
        _ ≤ ((0.9 : ℚ) ^ 2) ^ k * ((0.9 : ℚ) ^ 2 * distSqMoved s.1 s.2 rawX rawY) := by
            apply mul_le_mul_of_nonneg_left hfac
            positivity
        _ = ((0.9 : ℚ) ^ 2) ^ (k + 1) * distSqMoved s.1 s.2 rawX rawY := by
            ring

/-- C8: if the raw (mirrored) wrist position equals the current smoothed
position, one update leaves the smoothed position exactly unchanged; and
each update scales the squared distance from smoothed to raw by exactly
`0.7 ^ 2` (when the distance exceeds 0.05, i.e. its square exceeds
`0.05 ^ 2`) or `0.9 ^ 2` (otherwise) — the Euclidean distance shrinks by
factor 0.7 or 0.9 — so with the raw position held constant the distance
decays at least geometrically and the smoothed cursor converges
monotonically to the raw position. -/
theorem smoother_fixed_point_and_contraction :
    (∀ sx sy : ℚ, smoothStep sx sy sx sy = (sx, sy)) ∧
    (∀ sx sy rawX rawY : ℚ,
      distSqMoved (smoothStep sx sy rawX rawY).1 (smoothStep sx sy rawX rawY).2
          rawX rawY =
        (if distSqMoved sx sy rawX rawY > 0.05 ^ 2 then (0.7 : ℚ) ^ 2
          else (0.9 : ℚ) ^ 2) *
          distSqMoved sx sy rawX rawY) ∧
    (∀ (rawX rawY : ℚ) (n : ℕ) (s : ℚ × ℚ),
      distSqMoved (iterSmooth rawX rawY n s).1 (iterSmooth rawX rawY n s).2
          rawX rawY ≤
        ((0.9 : ℚ) ^ 2) ^ n * distSqMoved s.1 s.2 rawX rawY) := by
  refine ⟨?_, smoothStep_distSq, iterSmooth_distSq_le⟩
  intro sx sy
  have hc : ¬(distSqMoved sx sy sx sy > (0.05 : ℚ) ^ 2) := by
    unfold distSqMoved
    norm_num
  unfold smoothStep lerpFactor
  rw [if_neg hc]
  unfold lerp
  simp only [Prod.mk.injEq]
  constructor <;> ring

/-- The published hand state in the zustand store (`HandData` in
`types.ts`): the reported gesture and the smoothed cursor, initialized to
`{ gesture: NONE, x: 0.5, y: 0.5 }`. -/
structure HandData where
  gesture : GestureType
  x : ℚ
  y : ℚ
deriving DecidableEq, Repr

/-- The `GestureDetector` component's mutable refs driving `predictWebcam`:
`smoothedX`/`smoothedY` (initialized 0.5), `gestureHistory` and
`lastGestureTime`. -/
structure DetectorState where
  smoothedX : ℚ
  smoothedY : ℚ
  gestureHistory : List GestureType
  lastGestureTime : ℤ
deriving DecidableEq, Repr

/-- The zustand store fields: the mode, the published hand data, the focused
photo and the photo collection (abstracted to a count — photo URLs,
positions and descriptions never feed back into gesture or mode control). -/
structure StoreState where
  mode : AppMode
  handData : HandData
  focusedPhotoId : Option ℕ
  photoCount : ℕ
deriving DecidableEq, Repr

/-- The whole control-relevant program state: detector refs plus store. -/
structure ProgramState where
  detector : DetectorState
  store : StoreState
deriving DecidableEq, Repr

/-- One processed tick with a detected hand: the classifier metrics computed
from the landmarks, the wrist position (normalized coordinates) and the
`Date.now()` timestamp. -/
structure TickInput where
  metrics : HandMetrics
  wristX : ℚ
  wristY : ℚ
  now : ℤ
deriving DecidableEq, Repr

/-- Source `updateHandData({ gesture: ... })` with a partial record: the
zustand store merges `{ ...state.handData, ...data }`, keeping the previous
x and y. -/
def updateHandDataGestureOnly (st : StoreState) (g : GestureType) : StoreState :=
  { st with handData := { st.handData with gesture := g } }

/-- One iteration of `predictWebcam` past the readiness and duplicate-frame
guards.  With a detected hand (`results.landmarks` nonempty) it classifies
the frame, pushes the result into `gestureHistory`, takes the plurality
vote, runs the debounced mode transition, smooths the cursor from the
mirrored wrist (`rawX = 1 - wrist.x`, `rawY = wrist.y`), and publishes
`{ gesture: stableGesture, x, y }`.  With no hand it only publishes
`{ gesture: NONE }`; history, smoothing refs, debounce timestamp and mode
are untouched. -/
def predictTick (ps : ProgramState) (inp : Option TickInput) : ProgramState :=
  match inp with
  | some i =>
      let g := detectedGesture i.metrics
      let h := pushGesture ps.detector.gestureHistory g
      let stable := stableGesture h
      let gate := modeTransition
        (GateState.mk ps.store.mode ps.detector.lastGestureTime) stable i.now
      let rawX := 1 - i.wristX
      let rawY := i.wristY
      let s := smoothStep ps.detector.smoothedX ps.detector.smoothedY rawX rawY
      ProgramState.mk
        (DetectorState.mk s.1 s.2 h gate.lastGestureTime)
        { ps.store with
            mode := gate.mode,
            handData := HandData.mk stable s.1 s.2 }
  | none =>
      { ps with store := updateHandDataGestureOnly ps.store GestureType.NONE }

/-- C4: on a tick whose hand frame is absent, the published gesture is NONE
regardless of the retained gesture history (in particular on the very first
absent tick after stabilizing on any gesture), while the published cursor
coordinates and the whole detector state — smoother included — are unchanged
from the previous tick. -/
theorem absent_hand_reports_none (ps : ProgramState) :
    (predictTick ps none).store.handData.gesture = GestureType.NONE ∧
    (predictTick ps none).store.handData.x = ps.store.handData.x ∧
    (predictTick ps none).store.handData.y = ps.store.handData.y ∧
    (predictTick ps none).detector = ps.detector :=
  ⟨rfl, rfl, rfl, rfl⟩

/-- Counterexample to C5: on an absent-hand tick nothing is appended to the
gesture history.  Starting from a history stabilized on HEART, the claim
predicts the post-tick window `pushGesture [HEART] NONE = [HEART, NONE]`,
but the code leaves the window at `[HEART]`. -/
theorem absent_tick_appends_nothing_cex :
    (predictTick
        (ProgramState.mk (DetectorState.mk (1/2) (1/2) [GestureType.HEART] 0)
          (StoreState.mk AppMode.TREE
            (HandData.mk GestureType.HEART (1/2) (1/2)) none 0))
        none).detector.gestureHistory ≠
      pushGesture [GestureType.HEART] GestureType.NONE := by
  decide

/-- C5 as amended: the driver appends the per-frame classification to the
gesture history exactly on ticks with a present hand frame; a tick with an
absent hand frame appends nothing and leaves the window unchanged, so no
NONE samples accumulate in the stabilizer window after a hand vanishes. -/
theorem history_appended_iff_present (ps : ProgramState) (i : TickInput) :
    (predictTick ps (some i)).detector.gestureHistory =
      pushGesture ps.detector.gestureHistory (detectedGesture i.metrics) ∧
    (predictTick ps none).detector.gestureHistory =
      ps.detector.gestureHistory :=
  ⟨rfl, rfl⟩

/-- The store-mutating entry points of the application: the detector's
per-frame tick (`predictWebcam`), the three mode buttons of `App`
(`onClick={() => setMode(...)}` for TREE, TEXT and SCATTER), the photo
upload (`addPhotos`), the photo-focus setter (`setFocusedPhotoId`, called
from `PhotoCloud`) and the caption update (`updatePhotoDescription`, which
does not touch control state). -/
inductive AppEvent where
  | detectorTick (inp : Option TickInput)
  | clickTreeButton
  | clickTextButton
  | clickScatterButton
  | addPhotos (k : ℕ)
  | setFocusedPhotoId (id : Option ℕ)
  | updatePhotoDescription

/-- The whole-program step relation over the mutation entry points. -/
def stepProgram (ps : ProgramState) : AppEvent → ProgramState
  | AppEvent.detectorTick inp => predictTick ps inp
  | AppEvent.clickTreeButton =>
      { ps with store := { ps.store with mode := AppMode.TREE } }
  | AppEvent.clickTextButton =>
      { ps with store := { ps.store with mode := AppMode.TEXT } }
  | AppEvent.clickScatterButton =>
      { ps with store := { ps.store with mode := AppMode.SCATTER } }
  | AppEvent.addPhotos k =>
      { ps with store := { ps.store with photoCount := ps.store.photoCount + k } }
  | AppEvent.setFocusedPhotoId id =>
      { ps with store := { ps.store with focusedPhotoId := id } }
  | AppEvent.updatePhotoDescription => ps

/-- Counterexample to C6: clicking the Text mode button of `App` — a code
path that is not the Mode Transition Controller — changes the mode from TREE
to TEXT, so the mode is NOT mutated only through the controller's debounced
transitions. -/
theorem mode_changed_by_button_cex :
    (stepProgram
        (ProgramState.mk (DetectorState.mk (1/2) (1/2) [] 0)
          (StoreState.mk AppMode.TREE
            (HandData.mk GestureType.NONE (1/2) (1/2)) none 0))
        AppEvent.clickTextButton).store.mode ≠
      (ProgramState.mk (DetectorState.mk (1/2) (1/2) [] 0)
          (StoreState.mk AppMode.TREE
            (HandData.mk GestureType.NONE (1/2) (1/2)) none 0)).store.mode := by
  decide

/-- C6 as amended: the mode is mutated only through the store's `setMode`,
whose callers are the Mode Transition Controller inside the detector tick
and the three UI mode buttons of `App`; every other event leaves the mode
unchanged, and on a tick the new mode is exactly the controller's debounced
decision (an absent-hand tick never changes it). -/
theorem mode_mutation_sites :
    (∀ (ps : ProgramState) (e : AppEvent),
      (stepProgram ps e).store.mode = ps.store.mode ∨
      (∃ i, e = AppEvent.detectorTick i) ∨
      e = AppEvent.clickTreeButton ∨ e = AppEvent.clickTextButton ∨
      e = AppEvent.clickScatterButton) ∧
    (∀ (ps : ProgramState) (i : TickInput),
      (stepProgram ps (AppEvent.detectorTick (some i))).store.mode =
        (modeTransition (GateState.mk ps.store.mode ps.detector.lastGestureTime)
          (stableGesture (pushGesture ps.detector.gestureHistory
            (detectedGesture i.metrics))) i.now).mode) ∧
    (∀ ps : ProgramState,
      (stepProgram ps (AppEvent.detectorTick none)).store.mode =
        ps.store.mode) := by
  refine ⟨?_, fun ps i => rfl, fun ps => rfl⟩
  intro ps e
  cases e with
  | detectorTick i => exact Or.inr (Or.inl ⟨i, rfl⟩)
  | clickTreeButton => exact Or.inr (Or.inr (Or.inl rfl))
  | clickTextButton => exact Or.inr (Or.inr (Or.inr (Or.inl rfl)))
  | clickScatterButton => exact Or.inr (Or.inr (Or.inr (Or.inr rfl)))
  | addPhotos k => exact Or.inl rfl
  | setFocusedPhotoId id => exact Or.inl rfl
  | updatePhotoDescription => exact Or.inl rfl

end XmasGesture
